import Mathlib

/-!
Verification of the Mini-Data-Query-Simulation-Engine service.

This file embeds the request-handling pipeline of the repository
(Express middleware `queryValidation`, the LLM-reply parsers of
`validateQuery` and the SQL translation step of `queryHandler`, the
destructive-SQL safety gate, the `validateHandler` and `explainHandler`
endpoints, startup configuration, and the database seeding procedure
`insertInitialData`) as executable Lean definitions, and proves the
specification's testable properties about them.

Conventions: JavaScript strings are modelled as Lean `String`
(`List Char` underneath); `null`/`undefined` values as `Option`;
a thrown TypeError as the `JsOutcome.thrown` constructor.
-/

set_option maxRecDepth 8192

/-- JavaScript whitespace test (`\s`, `trim`): space, tab, CR, LF. -/
def jsWs (c : Char) : Bool := c.isWhitespace

/-- JavaScript `String.prototype.trim`: strip leading and trailing whitespace. -/
def jsTrim (s : String) : String :=
  String.mk (((s.data.dropWhile jsWs).reverse.dropWhile jsWs).reverse)

/-- JavaScript `String.prototype.toLowerCase` on a character list (ASCII-adequate). -/
def jsLower (l : List Char) : List Char := l.map Char.toLower

/-- If `pat` is an initial segment of `l`, return the remainder after it. -/
def restAfter : List Char → List Char → Option (List Char)
  | [], l => some l
  | _ :: _, [] => none
  | p :: ps, c :: cs => if c = p then restAfter ps cs else none

/-- First occurrence of `sep` in a list: `some (before, after)` where
`l = before ++ sep ++ after` and `sep` does not start earlier. -/
def findSep (sep : List Char) : List Char → Option (List Char × List Char)
  | [] =>
    match restAfter sep [] with
    | some r => some ([], r)
    | none => none
  | c :: cs =>
    match restAfter sep (c :: cs) with
    | some r => some ([], r)
    | none =>
      match findSep sep cs with
      | some (b, a) => some (c :: b, a)
      | none => none

/-- Fuelled worker for `jsSplit`. -/
def splitGo (sep : List Char) : Nat → List Char → List (List Char)
  | 0, l => [l]
  | Nat.succ f, l =>
    match findSep sep l with
    | none => [l]
    | some (b, a) => b :: splitGo sep f a

/-- JavaScript `String.prototype.split` with a non-empty literal separator:
cut at each leftmost occurrence of `sep`. -/
def jsSplit (sep : List Char) (l : List Char) : List (List Char) :=
  splitGo sep (l.length + 1) l

/-- JavaScript `Array.prototype.join` with separator `sep`. -/
def joinSep (sep : List Char) : List (List Char) → List Char
  | [] => []
  | [x] => x
  | x :: y :: ys => x ++ sep ++ joinSep sep (y :: ys)

/-- One choice of a chat-completion reply; `content` is `message?.content`
(`none` models a missing message or `null` content). -/
structure ChatChoice where
  content : Option String
deriving DecidableEq, Repr

/-- A chat-completion reply from the model gateway; `choices = none`
models a missing/null `choices` field. -/
structure ChatReply where
  choices : Option (List ChatChoice)
deriving DecidableEq, Repr

/-- The validation verdict produced by `validateQuery`
(`{isValid, isAligned, justification, isRateLimited}`). -/
structure Verdict where
  isValid : Bool
  isAligned : Bool
  justification : String
  isRateLimited : Bool
deriving DecidableEq, Repr

/-- Result of a JavaScript computation that can throw a TypeError. -/
inductive JsOutcome (α : Type) where
  | ok : α → JsOutcome α
  | thrown : JsOutcome α
deriving DecidableEq, Repr

/-- The fail-closed verdict `validateQuery` returns for an absent or empty reply. -/
def failClosedVerdict : Verdict :=
  Verdict.mk false false "Failed to validate query." false

/-- The reply-parsing portion of `validateQuery`
(src/controllers/query.ts): guard on missing choices and falsy trimmed
content, then destructure `validationMessage.split(" ")` into the first
two fields and a space-joined justification.  A single-field message makes
`isAligned.toLowerCase()` dereference `undefined`, which throws. -/
def parseValidation (reply : ChatReply) : JsOutcome Verdict :=
  match reply.choices with
  | none => JsOutcome.ok failClosedVerdict
  | some [] => JsOutcome.ok failClosedVerdict
  | some (c :: _) =>
    match c.content with
    | none => JsOutcome.ok failClosedVerdict
    | some raw =>
      if jsTrim raw = "" then JsOutcome.ok failClosedVerdict
      else
        match jsSplit [' '] (jsTrim raw).data with
        | [] => JsOutcome.thrown
        | [_] => JsOutcome.thrown
        | v :: a :: rest =>
          JsOutcome.ok
            (Verdict.mk (jsLower v == "yes".data) (jsLower a == "yes".data)
              (String.mk (joinSep [' '] rest)) false)

/-- The `queryValidation` express-validator middleware
(src/middlewares/query.ts): `body("query").trim()` then
`exists({checkFalsy:true})` with message "Query is required", then
`isLength({max:500})` with message
"Query can only be a maximum of 500 characters". -/
def queryValidation (body : Option String) : Except String String :=
  match body with
  | none => Except.error "Query is required"
  | some q =>
    if jsTrim q = "" then Except.error "Query is required"
    else if 500 < (jsTrim q).length then
      Except.error "Query can only be a maximum of 500 characters"
    else Except.ok (jsTrim q)

/-- A result row, as returned by `db.all`: a list of column/value pairs. -/
abbrev Row := List (String × String)

/-- The uniform response envelope produced by the response templates
(src/utils/responseTemplates.ts): client error, server error, success
(with the optional payload fields the handlers attach), or an error
passed to `next(err)`. -/
inductive HandlerResponse where
  | clientError (status : Nat) (error : String)
  | serverError (status : Nat) (error : String)
  | success (status : Nat) (message : String) (sqlQuery : Option String)
      (rows : Option (List Row)) (explanation : Option String)
      (justification : Option String)
  | nextErr
deriving DecidableEq, Repr

/-- Modelled from the spec: the global error handler middleware
(src/middlewares/handlers.ts is not among the sources); per the spec,
uncaught exceptions become a 500 with a uniform error envelope. -/
def globalErrorStatus : Nat := 500

/-- HTTP status of a terminal pipeline state; an error forwarded with
`next(err)` reaches the global error handler. -/
def responseStatus : HandlerResponse → Nat
  | HandlerResponse.clientError s _ => s
  | HandlerResponse.serverError s _ => s
  | HandlerResponse.success s _ _ _ _ _ => s
  | HandlerResponse.nextErr => globalErrorStatus

/-- Which external effects a request performed: the two model-gateway
round trips and the SQL statement given to `db.all`, if any. -/
structure Effects where
  validatorCalled : Bool
  translatorCalled : Bool
  dbCall : Option String
deriving DecidableEq, Repr

/-- The translation-reply destructuring of `queryHandler`:
`const [sqlQuery, explanation] = responseMessage.split("; ")`. -/
def parseTranslation (msg : String) : String × Option String :=
  match jsSplit [';', ' '] msg.data with
  | [] => ("", none)
  | [s] => (String.mk s, none)
  | s :: e :: _ => (String.mk s, some (String.mk e))

/-- Match `w1`, then one or more whitespace characters, then `w2`, at the
head of `l` (the `W1\s+W2` alternatives of the safety-gate regex). -/
def pairAt (w1 w2 : List Char) (l : List Char) : Bool :=
  match restAfter w1 l with
  | none => false
  | some r =>
    !(r.takeWhile jsWs).isEmpty && (restAfter w2 (r.dropWhile jsWs)).isSome

/-- Search for `w1\s+w2` starting at any position of `l`. -/
def searchPair (w1 w2 : List Char) : List Char → Bool
  | [] => pairAt w1 w2 []
  | c :: cs => pairAt w1 w2 (c :: cs) || searchPair w1 w2 cs

/-- The safety gate of `queryHandler`:
`/DROP\s+TABLE|DELETE\s+FROM|ALTER\s+TABLE|UPDATE\s+SET/i.test(sqlQuery)`. -/
def isDestructive (sql : String) : Bool :=
  let l := jsLower sql.data
  searchPair "drop".data "table".data l ||
  searchPair "delete".data "from".data l ||
  searchPair "alter".data "table".data l ||
  searchPair "update".data "set".data l

/-- The translation-and-execution tail of `queryHandler`, reached only
after a valid, aligned verdict: read `choices[0].message.content`
(throwing if `choices` is missing or empty), reject a falsy reply with a
500, split off the SQL statement, apply the safety gate, and execute. -/
def translatePhase (tReply : ChatReply)
    (dbAll : String → Except Unit (List Row)) : HandlerResponse × Effects :=
  match tReply.choices with
  | none => (HandlerResponse.nextErr, Effects.mk true true none)
  | some [] => (HandlerResponse.nextErr, Effects.mk true true none)
  | some (c :: _) =>
    match c.content with
    | none =>
      (HandlerResponse.serverError 500 "Failed to generate SQL query",
       Effects.mk true true none)
    | some msg =>
      if msg = "" then
        (HandlerResponse.serverError 500 "Failed to generate SQL query",
         Effects.mk true true none)
      else
        if isDestructive (parseTranslation msg).1 then
          (HandlerResponse.clientError 400
             "Potentially destructive queries are not allowed.",
           Effects.mk true true none)
        else
          match dbAll (parseTranslation msg).1 with
          | Except.error _ =>
            (HandlerResponse.serverError 500 "Failed to execute SQL query",
             Effects.mk true true (some (parseTranslation msg).1))
          | Except.ok rows =>
            (HandlerResponse.success 200
               "Query translated and executed successfully!"
               (some (parseTranslation msg).1) (some rows)
               (parseTranslation msg).2 none,
             Effects.mk true true (some (parseTranslation msg).1))

/-- The `POST /query` pipeline (src/middlewares/query.ts then
`queryHandler` of src/controllers/query.ts), as a function of the request
body, the two gateway replies, and the storage layer, returning the
response together with the effects performed. -/
def queryHandlerRun (body : Option String) (vReply tReply : ChatReply)
    (dbAll : String → Except Unit (List Row)) : HandlerResponse × Effects :=
  match queryValidation body with
  | Except.error msg =>
    (HandlerResponse.clientError 400 msg, Effects.mk false false none)
  | Except.ok _ =>
    match parseValidation vReply with
    | JsOutcome.thrown => (HandlerResponse.nextErr, Effects.mk true false none)
    | JsOutcome.ok v =>
      if v.isRateLimited then
        (HandlerResponse.clientError 400 v.justification,
         Effects.mk true false none)
      else if !v.isValid then
        (HandlerResponse.clientError 400 ("Invalid query: " ++ v.justification),
         Effects.mk true false none)
      else if !v.isAligned then
        (HandlerResponse.clientError 400 ("Invalid query: " ++ v.justification),
         Effects.mk true false none)
      else
        translatePhase tReply dbAll

/-- The `POST /validate` pipeline (middleware then `validateHandler`):
validate only, no translation and no storage access. -/
def validateHandlerRun (body : Option String) (vReply : ChatReply) :
    HandlerResponse × Effects :=
  match queryValidation body with
  | Except.error msg =>
    (HandlerResponse.clientError 400 msg, Effects.mk false false none)
  | Except.ok _ =>
    match parseValidation vReply with
    | JsOutcome.thrown => (HandlerResponse.nextErr, Effects.mk true false none)
    | JsOutcome.ok v =>
      if !v.isValid || !v.isAligned then
        (HandlerResponse.clientError 400 ("Invalid query: " ++ v.justification),
         Effects.mk true false none)
      else
        (HandlerResponse.success 200 "Validation of query successful!"
           none none none (some v.justification),
         Effects.mk true false none)

/-- The `POST /explain` pipeline (middleware then `explainHandler`):
validate, translate and split the reply, but never execute. -/
def explainHandlerRun (body : Option String) (vReply tReply : ChatReply) :
    HandlerResponse × Effects :=
  match queryValidation body with
  | Except.error msg =>
    (HandlerResponse.clientError 400 msg, Effects.mk false false none)
  | Except.ok _ =>
    match parseValidation vReply with
    | JsOutcome.thrown => (HandlerResponse.nextErr, Effects.mk true false none)
    | JsOutcome.ok v =>
      if !v.isValid || !v.isAligned then
        (HandlerResponse.clientError 400 ("Invalid query: " ++ v.justification),
         Effects.mk true false none)
      else
        match tReply.choices with
        | none => (HandlerResponse.nextErr, Effects.mk true true none)
        | some [] => (HandlerResponse.nextErr, Effects.mk true true none)
        | some (c :: _) =>
          match c.content with
          | none =>
            (HandlerResponse.serverError 500
               "Failed to generate simulated query explanation",
             Effects.mk true true none)
          | some msg =>
            if msg = "" then
              (HandlerResponse.serverError 500
                 "Failed to generate simulated query explanation",
               Effects.mk true true none)
            else
              (HandlerResponse.success 200 "Explanation generated successfully!"
                 (some (parseTranslation msg).1) none (parseTranslation msg).2
                 none,
               Effects.mk true true none)

/-- The process environment variables the service reads. -/
structure ProcessEnv where
  PORT : Option String
  GITHUB_PAT : Option String
deriving DecidableEq, Repr

/-- Module initialization of src/llm/client.ts: reading `GITHUB_PAT`
from the environment and throwing when it is undefined. -/
def clientInit (env : ProcessEnv) : Except String String :=
  match env.GITHUB_PAT with
  | none => Except.error "Github Personal Access Token isn't defined"
  | some pat => Except.ok pat

/-- The port the server listens on: src/main.ts hardcodes `const PORT = 4000`. -/
def PORT : Nat := 4000

/-- Process startup: importing the LLM client (fatal if the token is
absent) and then listening on the hardcoded port. Returns the port the
server listens on, or the startup error. -/
def startup (env : ProcessEnv) : Except String Nat :=
  match clientInit env with
  | Except.error e => Except.error e
  | Except.ok _ => Except.ok PORT

/-- A row of the `categories` table. -/
structure CategoryRow where
  id : Nat
  name : String
deriving DecidableEq, Repr

/-- A row of the `products` table. -/
structure ProductRow where
  id : Nat
  name : String
  category_id : Nat
  price : Int
deriving DecidableEq, Repr

/-- A row of the `sales` table. -/
structure SaleRow where
  id : Nat
  product_id : Nat
  revenue : Int
  quantity_sold : Nat
  sale_date : String
deriving DecidableEq, Repr

/-- The embedded store: the three tables plus the AUTOINCREMENT
sequence counter of each. -/
structure DbState where
  catSeq : Nat
  categories : List CategoryRow
  prodSeq : Nat
  products : List ProductRow
  saleSeq : Nat
  sales : List SaleRow
deriving DecidableEq, Repr

/-- Does a category with this name exist? -/
def hasCategory (s : DbState) (name : String) : Bool :=
  s.categories.any (fun r => r.name == name)

/-- Does a product with this name exist? -/
def hasProduct (s : DbState) (name : String) : Bool :=
  s.products.any (fun r => r.name == name)

/-- Does a sale with this product id and date exist? -/
def hasSale (s : DbState) (pid : Nat) (date : String) : Bool :=
  s.sales.any (fun r => r.product_id == pid && r.sale_date == date)

/-- `INSERT INTO categories (name) SELECT ? WHERE NOT EXISTS
(SELECT 1 FROM categories WHERE name = ?)`. -/
def insertCategory (s : DbState) (name : String) : DbState :=
  if hasCategory s name then s
  else
    DbState.mk (s.catSeq + 1)
      (s.categories ++ [CategoryRow.mk (s.catSeq + 1) name])
      s.prodSeq s.products s.saleSeq s.sales

/-- `INSERT INTO products (name, category_id, price) SELECT ?, ?, ?
WHERE NOT EXISTS (SELECT 1 FROM products WHERE name = ?)`. -/
def insertProduct (s : DbState) (p : String × Nat × Int) : DbState :=
  if hasProduct s p.1 then s
  else
    DbState.mk s.catSeq s.categories (s.prodSeq + 1)
      (s.products ++ [ProductRow.mk (s.prodSeq + 1) p.1 p.2.1 p.2.2])
      s.saleSeq s.sales

/-- `INSERT INTO sales (product_id, revenue, quantity_sold, sale_date)
SELECT ?, ?, ?, ? WHERE NOT EXISTS
(SELECT 1 FROM sales WHERE product_id = ? AND sale_date = ?)`. -/
def insertSale (s : DbState) (p : Nat × Int × Nat × String) : DbState :=
  if hasSale s p.1 p.2.2.2 then s
  else
    DbState.mk s.catSeq s.categories s.prodSeq s.products (s.saleSeq + 1)
      (s.sales ++ [SaleRow.mk (s.saleSeq + 1) p.1 p.2.1 p.2.2.1 p.2.2.2])

/-- The seed category names of `insertInitialData`. -/
def seedCategories : List String :=
  ["Electronics", "Furniture", "Clothing", "Grocery"]

/-- The seed products of `insertInitialData`: name, category id, price. -/
def seedProducts : List (String × Nat × Int) :=
  [("Laptop", 1, 1200), ("Smartphone", 1, 800), ("Tablet", 1, 500),
   ("Desk", 2, 300), ("Chair", 2, 150), ("Sofa", 2, 700),
   ("T-Shirt", 3, 25), ("Jeans", 3, 40), ("Jacket", 3, 100),
   ("Milk", 4, 5), ("Bread", 4, 3)]

/-- The seed sales of `insertInitialData`: product id, revenue,
quantity sold, sale date. -/
def seedSales : List (Nat × Int × Nat × String) :=
  [(1, 1200, 10, "2024-03-15"), (2, 800, 15, "2024-03-10"),
   (3, 500, 8, "2024-02-20"), (4, 300, 5, "2024-01-25"),
   (5, 150, 12, "2024-02-10"), (6, 700, 3, "2024-03-05"),
   (7, 25, 50, "2024-03-18"), (8, 40, 30, "2024-03-12"),
   (9, 100, 20, "2024-02-15"), (10, 5, 100, "2024-03-17"),
   (11, 3, 90, "2024-03-16")]

/-- `insertInitialData` (src/initializeDB.ts and src/db/db.ts): the three
guarded insert loops, categories then products then sales. -/
def insertInitialData (s : DbState) : DbState :=
  seedSales.foldl insertSale
    (seedProducts.foldl insertProduct
      (seedCategories.foldl insertCategory s))

/-- The empty store, as after `createTables` on a fresh file. -/
def emptyDb : DbState := DbState.mk 0 [] 0 [] 0 []

/-- Accumulator-based whitespace tokenizer: the spec-side reading of
"whitespace-delimited tokens" used to state claim C5. -/
def wsTokensAux : List Char → List Char → List (List Char)
  | [], acc => if acc.isEmpty then [] else [acc.reverse]
  | c :: cs, acc =>
    if jsWs c then
      if acc.isEmpty then wsTokensAux cs []
      else acc.reverse :: wsTokensAux cs []
    else wsTokensAux cs (c :: acc)

/-- The whitespace-delimited tokens of a string (empty tokens dropped). -/
def wsTokens (s : String) : List String :=
  (wsTokensAux s.data []).map String.mk

theorem restAfter_self_append (p r : List Char) : restAfter p (p ++ r) = some r := by
  induction p with
  | nil => rfl
  | cons c cs ih => simp [restAfter, ih]

theorem restAfter_eq_some {p l r : List Char} (h : restAfter p l = some r) :
    l = p ++ r := by
  induction p generalizing l with
  | nil => simp [restAfter] at h; simp [h]
  | cons c cs ih =>
    cases l with
    | nil => simp [restAfter] at h
    | cons x xs =>
      simp only [restAfter] at h
      by_cases hx : x = c
      · rw [if_pos hx] at h
        subst hx
        simp [ih h]
      · rw [if_neg hx] at h
        exact absurd h (by simp)

theorem findSep_nil_of_sep_ne_nil {sep : List Char} (hsep : sep ≠ []) :
    findSep sep ([] : List Char) = none := by
  obtain ⟨c, cs, rfl⟩ := List.exists_cons_of_ne_nil hsep
  rfl

theorem findSep_eq_append {sep : List Char} :
    ∀ {l b a : List Char}, findSep sep l = some (b, a) → l = b ++ sep ++ a := by
  intro l
  induction l with
  | nil =>
    intro b a h
    simp only [findSep] at h
    cases hra : restAfter sep ([] : List Char) with
    | none => rw [hra] at h; simp at h
    | some r =>
      rw [hra] at h
      simp at h
      obtain ⟨hb, ha⟩ := h
      have hl := restAfter_eq_some hra
      subst hb
      subst ha
      simpa using hl
  | cons c cs ih =>
    intro b a h
    simp only [findSep] at h
    cases hra : restAfter sep (c :: cs) with
    | some r =>
      rw [hra] at h
      simp at h
      obtain ⟨hb, ha⟩ := h
      have hl := restAfter_eq_some hra
      subst hb
      subst ha
      simpa using hl
    | none =>
      rw [hra] at h
      cases hfs : findSep sep cs with
      | none => rw [hfs] at h; simp at h
      | some ba =>
        rw [hfs] at h
        cases ba with
        | mk b' a' =>
          simp at h
          obtain ⟨hb, ha⟩ := h
          have hcs := ih hfs
          subst hb
          subst ha
          simp [hcs]

theorem findSep_lt {sep l b a : List Char} (hsep : sep ≠ [])
    (h : findSep sep l = some (b, a)) : a.length < l.length := by
  have hl := findSep_eq_append h
  have hlen : l.length = b.length + sep.length + a.length := by
    rw [hl]; simp [List.length_append]; omega
  have hpos : 0 < sep.length := List.length_pos.mpr hsep
  omega

theorem splitGo_succ_none {sep l : List Char} {f : Nat}
    (h : findSep sep l = none) : splitGo sep (f + 1) l = [l] := by
  simp [splitGo, h]

theorem splitGo_succ_some {sep l b a : List Char} {f : Nat}
    (h : findSep sep l = some (b, a)) :
    splitGo sep (f + 1) l = b :: splitGo sep f a := by
  simp [splitGo, h]

theorem splitGo_ne_nil (sep : List Char) (f : Nat) (l : List Char) :
    splitGo sep f l ≠ [] := by
  cases f with
  | zero => simp [splitGo]
  | succ g =>
    cases hfs : findSep sep l with
    | none => rw [splitGo_succ_none hfs]; simp
    | some ba =>
      cases ba with
      | mk b a => rw [splitGo_succ_some hfs]; simp

theorem joinSep_splitGo {sep : List Char} (hsep : sep ≠ []) :
    ∀ (f : Nat) (l : List Char), l.length < f →
      joinSep sep (splitGo sep f l) = l := by
  intro f
  induction f with
  | zero => intro l h; omega
  | succ g ih =>
    intro l hl
    cases hfs : findSep sep l with
    | none => rw [splitGo_succ_none hfs]; rfl
    | some ba =>
      cases ba with
      | mk b a =>
        have hlt : a.length < l.length := findSep_lt hsep hfs
        rw [splitGo_succ_some hfs]
        obtain ⟨y, ys, hys⟩ := List.exists_cons_of_ne_nil (splitGo_ne_nil sep g a)
        rw [hys]
        simp only [joinSep]
        rw [← hys, ih a (by omega)]
        exact (findSep_eq_append hfs).symm

theorem joinSep_jsSplit {sep : List Char} (hsep : sep ≠ []) (l : List Char) :
    joinSep sep (jsSplit sep l) = l :=
  joinSep_splitGo hsep (l.length + 1) l (by omega)

theorem findSep_single_none {ch : Char} {l : List Char} (h : ch ∉ l) :
    findSep [ch] l = none := by
  induction l with
  | nil => rfl
  | cons c cs ih =>
    have hc : ¬(c = ch) := fun hc => h (by simp [hc])
    have h2 : ch ∉ cs := fun hm => h (by simp [hm])
    simp only [findSep, restAfter, if_neg hc, ih h2]

theorem jsSplit_single_of_not_mem {ch : Char} {l : List Char} (h : ch ∉ l) :
    jsSplit [ch] l = [l] := by
  unfold jsSplit
  exact splitGo_succ_none (findSep_single_none h)

theorem findSep_single_append {ch : Char} {a : List Char} (r : List Char)
    (h : ch ∉ a) : findSep [ch] (a ++ ch :: r) = some (a, r) := by
  induction a with
  | nil => simp [findSep, restAfter]
  | cons c cs ih =>
    have hc : ¬(c = ch) := fun hc => h (by simp [hc])
    have h2 : ch ∉ cs := fun hm => h (by simp [hm])
    simp only [List.cons_append, findSep, restAfter, if_neg hc, List.append_eq,
      ih h2]

theorem splitGo_congr {sep : List Char} (hsep : sep ≠ []) :
    ∀ (n f g : Nat) (l : List Char), l.length ≤ n → l.length < f →
      l.length < g → splitGo sep f l = splitGo sep g l := by
  intro n
  induction n with
  | zero =>
    intro f g l hn hf hg
    obtain ⟨f', rfl⟩ : ∃ f', f = f' + 1 := ⟨f - 1, by omega⟩
    obtain ⟨g', rfl⟩ : ∃ g', g = g' + 1 := ⟨g - 1, by omega⟩
    have hl : l = [] := List.length_eq_zero.mp (by omega)
    subst hl
    rw [splitGo_succ_none (findSep_nil_of_sep_ne_nil hsep),
      splitGo_succ_none (findSep_nil_of_sep_ne_nil hsep)]
  | succ m ih =>
    intro f g l hn hf hg
    obtain ⟨f', rfl⟩ : ∃ f', f = f' + 1 := ⟨f - 1, by omega⟩
    obtain ⟨g', rfl⟩ : ∃ g', g = g' + 1 := ⟨g - 1, by omega⟩
    cases hfs : findSep sep l with
    | none => rw [splitGo_succ_none hfs, splitGo_succ_none hfs]
    | some ba =>
      cases ba with
      | mk b a =>
        have hlt : a.length < l.length := findSep_lt hsep hfs
        rw [splitGo_succ_some hfs, splitGo_succ_some hfs,
          ih f' g' a (by omega) (by omega) (by omega)]

theorem jsSplit_cons_of_sep {ch : Char} {a : List Char} (r : List Char)
    (h : ch ∉ a) : jsSplit [ch] (a ++ ch :: r) = a :: jsSplit [ch] r := by
  have hlen : (a ++ ch :: r).length = a.length + r.length + 1 := by
    simp only [List.length_append, List.length_cons]; omega
  unfold jsSplit
  rw [hlen, splitGo_succ_some (findSep_single_append r h),
    @splitGo_congr [ch] (by simp) r.length (a.length + r.length + 1)
      (r.length + 1) r (le_refl _) (by omega) (by omega)]

theorem takeWhile_ws_append {p : Char → Bool} {ws : List Char} {x : Char}
    (t : List Char) (hws : ∀ c ∈ ws, p c = true) (hx : p x = false) :
    (ws ++ x :: t).takeWhile p = ws := by
  induction ws with
  | nil => simp [List.takeWhile, hx]
  | cons w wsr ih =>
    have hw : p w = true := hws w (by simp)
    simp only [List.cons_append, List.takeWhile, hw, List.append_eq]
    rw [ih (fun c hc => hws c (by simp [hc]))]

theorem dropWhile_ws_append {p : Char → Bool} {ws : List Char} {x : Char}
    (t : List Char) (hws : ∀ c ∈ ws, p c = true) (hx : p x = false) :
    (ws ++ x :: t).dropWhile p = x :: t := by
  induction ws with
  | nil => simp [List.dropWhile, hx]
  | cons w wsr ih =>
    have hw : p w = true := hws w (by simp)
    simp only [List.cons_append, List.dropWhile, hw]
    exact ih (fun c hc => hws c (by simp [hc]))

theorem pairAt_intro {w1 ws : List Char} {x : Char} (xs post : List Char)
    (hx : jsWs x = false) (hne : ws ≠ []) (hws : ∀ c ∈ ws, jsWs c = true) :
    pairAt w1 (x :: xs) (w1 ++ (ws ++ (x :: (xs ++ post)))) = true := by
  simp only [pairAt, restAfter_self_append]
  rw [takeWhile_ws_append (xs ++ post) hws hx,
    dropWhile_ws_append (xs ++ post) hws hx]
  have h2 : restAfter (x :: xs) (x :: (xs ++ post)) = some post := by
    have := restAfter_self_append (x :: xs) post
    simpa using this
  simp [h2, List.isEmpty_eq_true, hne]

theorem searchPair_complete {w1 ws : List Char} {x : Char}
    (pre xs post : List Char) (hx : jsWs x = false) (hne : ws ≠ [])
    (hws : ∀ c ∈ ws, jsWs c = true) :
    searchPair w1 (x :: xs) (pre ++ (w1 ++ (ws ++ (x :: (xs ++ post))))) = true := by
  induction pre with
  | nil =>
    simp only [List.nil_append]
    have hp := @pairAt_intro w1 ws x xs post hx hne hws
    cases hl : w1 ++ (ws ++ (x :: (xs ++ post))) with
    | nil =>
      exact absurd hl (by simp)
    | cons c cs =>
      rw [hl] at hp
      simp [searchPair, hp]
  | cons c pre' ih =>
    simp only [List.cons_append, searchPair, List.append_eq]
    rw [ih]
    simp

/-- The claim-side reading of "contains `w1`, one or more whitespace
characters, then `w2`, as a substring". -/
def ContainsPair (w1 w2 l : List Char) : Prop :=
  ∃ pre ws post, l = pre ++ w1 ++ ws ++ w2 ++ post ∧ ws ≠ [] ∧
    ∀ c ∈ ws, jsWs c = true

/-- The claim-side reading of the destructive-statement property: the
lowercased SQL contains one of the four denylisted verb pairs separated
by a non-empty whitespace run. -/
def ClaimDestructive (sql : String) : Prop :=
  ContainsPair "drop".data "table".data (jsLower sql.data) ∨
  ContainsPair "delete".data "from".data (jsLower sql.data) ∨
  ContainsPair "alter".data "table".data (jsLower sql.data) ∨
  ContainsPair "update".data "set".data (jsLower sql.data)

theorem searchPair_of_containsPair {w1 w2 l : List Char} {x : Char}
    {xs : List Char} (h : ContainsPair w1 w2 l) (hw2 : w2 = x :: xs)
    (hx : jsWs x = false) : searchPair w1 w2 l = true := by
  subst hw2
  obtain ⟨pre, ws', post, hl, hne, hws⟩ := h
  have hsc := @searchPair_complete w1 ws' x pre xs post hx hne hws
  have hassoc : pre ++ (w1 ++ (ws' ++ (x :: (xs ++ post))))
      = pre ++ w1 ++ ws' ++ (x :: xs) ++ post := by
    simp [List.append_assoc]
  rw [hassoc] at hsc
  rw [hl]
  exact hsc

theorem parseValidation_ok_isRateLimited {r : ChatReply} {v : Verdict}
    (h : parseValidation r = JsOutcome.ok v) : v.isRateLimited = false := by
  unfold parseValidation at h
  split at h
  · cases h; rfl
  · cases h; rfl
  · split at h
    · cases h; rfl
    · split at h
      · cases h; rfl
      · split at h
        · cases h
        · cases h
        · cases h; rfl

theorem queryHandlerRun_of_valid {body : Option String} {q : String}
    {vReply : ChatReply} {v : Verdict} (tReply : ChatReply)
    (dbAll : String → Except Unit (List Row))
    (hq : queryValidation body = Except.ok q)
    (hv : parseValidation vReply = JsOutcome.ok v)
    (hval : v.isValid = true) (hal : v.isAligned = true) :
    queryHandlerRun body vReply tReply dbAll = translatePhase tReply dbAll := by
  have hrl := parseValidation_ok_isRateLimited hv
  unfold queryHandlerRun
  rw [hq, hv]
  simp [hrl, hval, hal]

theorem queryHandlerRun_translatorCalled {body : Option String}
    {vReply tReply : ChatReply} {dbAll : String → Except Unit (List Row)}
    (h : (queryHandlerRun body vReply tReply dbAll).2.translatorCalled = true) :
    queryHandlerRun body vReply tReply dbAll = translatePhase tReply dbAll := by
  unfold queryHandlerRun at h ⊢
  cases hq : queryValidation body with
  | error msg => simp [hq] at h
  | ok q =>
    simp only [hq] at h ⊢
    cases hv : parseValidation vReply with
    | thrown => simp [hv] at h
    | ok v =>
      simp only [hv] at h ⊢
      by_cases hrl : v.isRateLimited = true
      · simp [hrl] at h
      · simp only [Bool.not_eq_true] at hrl
        simp only [hrl] at h ⊢
        by_cases hval : v.isValid = true
        · simp only [hval] at h ⊢
          by_cases hal : v.isAligned = true
          · simp only [hal] at h ⊢
            simp at h ⊢
          · simp only [Bool.not_eq_true] at hal
            simp [hal] at h
        · simp only [Bool.not_eq_true] at hval
          simp [hval] at h

theorem parseValidation_thrown_of_single {vReply : ChatReply} {c : ChatChoice}
    {cs : List ChatChoice} {m : String}
    (hch : vReply.choices = some (c :: cs)) (hc : c.content = some m)
    (hne : jsTrim m ≠ "") (hns : ' ' ∉ (jsTrim m).data) :
    parseValidation vReply = JsOutcome.thrown := by
  unfold parseValidation
  simp only [hch, hc, if_neg hne]
  rw [jsSplit_single_of_not_mem hns]

theorem foldl_preserves_has {σ α : Type} {ins : σ → α → σ} {has : σ → α → Bool}
    (hmono : ∀ s k k', has s k = true → has (ins s k') k = true) :
    ∀ (l : List α) (s : σ) (k : α), has s k = true →
      has (l.foldl ins s) k = true := by
  intro l
  induction l with
  | nil => intro s k h; simpa using h
  | cons x xs ih => intro s k h; exact ih (ins s x) k (hmono s k x h)

theorem foldl_mem_has {σ α : Type} {ins : σ → α → σ} {has : σ → α → Bool}
    (hself : ∀ s k, has (ins s k) k = true)
    (hmono : ∀ s k k', has s k = true → has (ins s k') k = true) :
    ∀ (l : List α) (s : σ) (k : α), k ∈ l → has (l.foldl ins s) k = true := by
  intro l
  induction l with
  | nil => intro s k h; simp at h
  | cons x xs ih =>
    intro s k h
    rcases List.mem_cons.mp h with rfl | hm
    · exact foldl_preserves_has hmono xs (ins s k) k (hself s k)
    · exact ih (ins s x) k hm

theorem foldl_id_of_has {σ α : Type} {ins : σ → α → σ} {has : σ → α → Bool}
    (hid : ∀ s k, has s k = true → ins s k = s) :
    ∀ (l : List α) (s : σ), (∀ k ∈ l, has s k = true) → l.foldl ins s = s := by
  intro l
  induction l with
  | nil => intro s _; rfl
  | cons x xs ih =>
    intro s hall
    have hx : ins s x = s := hid s x (hall x (by simp))
    simp only [List.foldl_cons, hx]
    exact ih s (fun k hk => hall k (by simp [hk]))

theorem insertCategory_has_self (s : DbState) (n : String) :
    hasCategory (insertCategory s n) n = true := by
  unfold insertCategory
  split
  · assumption
  · simp [hasCategory, List.any_append]

theorem insertCategory_has_mono (s : DbState) (n n' : String)
    (h : hasCategory s n = true) : hasCategory (insertCategory s n') n = true := by
  unfold insertCategory
  split
  · exact h
  · simp [hasCategory, List.any_append]
    simp [hasCategory] at h
    exact Or.inl h

theorem insertCategory_id (s : DbState) (n : String)
    (h : hasCategory s n = true) : insertCategory s n = s := by
  unfold insertCategory
  rw [if_pos h]

theorem insertProduct_has_self (s : DbState) (p : String × Nat × Int) :
    hasProduct (insertProduct s p) p.1 = true := by
  unfold insertProduct
  split
  · assumption
  · simp [hasProduct, List.any_append]

theorem insertProduct_has_mono (s : DbState) (n : String) (p : String × Nat × Int)
    (h : hasProduct s n = true) : hasProduct (insertProduct s p) n = true := by
  unfold insertProduct
  split
  · exact h
  · simp [hasProduct, List.any_append]
    simp [hasProduct] at h
    exact Or.inl h

theorem insertProduct_id (s : DbState) (p : String × Nat × Int)
    (h : hasProduct s p.1 = true) : insertProduct s p = s := by
  unfold insertProduct
  rw [if_pos h]

theorem insertSale_has_self (s : DbState) (p : Nat × Int × Nat × String) :
    hasSale (insertSale s p) p.1 p.2.2.2 = true := by
  unfold insertSale
  split
  · assumption
  · simp [hasSale, List.any_append]

theorem insertSale_has_mono (s : DbState) (pid : Nat) (d : String)
    (p : Nat × Int × Nat × String) (h : hasSale s pid d = true) :
    hasSale (insertSale s p) pid d = true := by
  unfold insertSale
  split
  · exact h
  · simp [hasSale, List.any_append]
    simp [hasSale] at h
    exact Or.inl h

theorem insertSale_id (s : DbState) (p : Nat × Int × Nat × String)
    (h : hasSale s p.1 p.2.2.2 = true) : insertSale s p = s := by
  unfold insertSale
  rw [if_pos h]

theorem insertProduct_categories (s : DbState) (p : String × Nat × Int) :
    (insertProduct s p).categories = s.categories := by
  unfold insertProduct
  split <;> rfl

theorem insertSale_categories (s : DbState) (p : Nat × Int × Nat × String) :
    (insertSale s p).categories = s.categories := by
  unfold insertSale
  split <;> rfl

theorem insertSale_products (s : DbState) (p : Nat × Int × Nat × String) :
    (insertSale s p).products = s.products := by
  unfold insertSale
  split <;> rfl

theorem foldl_insertProduct_categories (l : List (String × Nat × Int)) :
    ∀ s : DbState, (l.foldl insertProduct s).categories = s.categories := by
  induction l with
  | nil => intro s; rfl
  | cons x xs ih =>
    intro s
    simp only [List.foldl_cons]
    rw [ih (insertProduct s x), insertProduct_categories]

theorem foldl_insertSale_categories (l : List (Nat × Int × Nat × String)) :
    ∀ s : DbState, (l.foldl insertSale s).categories = s.categories := by
  induction l with
  | nil => intro s; rfl
  | cons x xs ih =>
    intro s
    simp only [List.foldl_cons]
    rw [ih (insertSale s x), insertSale_categories]

theorem foldl_insertSale_products (l : List (Nat × Int × Nat × String)) :
    ∀ s : DbState, (l.foldl insertSale s).products = s.products := by
  induction l with
  | nil => intro s; rfl
  | cons x xs ih =>
    intro s
    simp only [List.foldl_cons]
    rw [ih (insertSale s x), insertSale_products]

theorem isDestructive_of_claim {sql : String} (h : ClaimDestructive sql) :
    isDestructive sql = true := by
  rcases h with h | h | h | h
  · have h1 := searchPair_of_containsPair h rfl (by decide)
    simp [isDestructive, h1]
  · have h1 := searchPair_of_containsPair h rfl (by decide)
    simp [isDestructive, h1]
  · have h1 := searchPair_of_containsPair h rfl (by decide)
    simp [isDestructive, h1]
  · have h1 := searchPair_of_containsPair h rfl (by decide)
    simp [isDestructive, h1]

theorem validateHandlerRun_dbCall (body : Option String) (vReply : ChatReply) :
    (validateHandlerRun body vReply).2.dbCall = none := by
  unfold validateHandlerRun
  repeat' split <;> try rfl

theorem explainHandlerRun_dbCall (body : Option String)
    (vReply tReply : ChatReply) :
    (explainHandlerRun body vReply tReply).2.dbCall = none := by
  unfold explainHandlerRun
  repeat' split <;> try rfl

/-- A call to one of the two read-only endpoints, with its inputs. -/
inductive ApiReadCall where
  | validateCall (body : Option String) (vReply : ChatReply)
  | explainCall (body : Option String) (vReply tReply : ChatReply)

/-- The effects a read-only endpoint call performs. -/
def readCallEffects : ApiReadCall → Effects
  | ApiReadCall.validateCall b r => (validateHandlerRun b r).2
  | ApiReadCall.explainCall b v t => (explainHandlerRun b v t).2

/-- Run one read-only endpoint call against the store: any SQL statement
it issues is executed by `exec`; a call that issues none leaves the
store alone. -/
def runReadCall (exec : DbState → String → DbState) (s : DbState)
    (call : ApiReadCall) : DbState :=
  match (readCallEffects call).dbCall with
  | none => s
  | some q => exec s q

theorem readCallEffects_dbCall (call : ApiReadCall) :
    (readCallEffects call).dbCall = none := by
  cases call with
  | validateCall b r => exact validateHandlerRun_dbCall b r
  | explainCall b v t => exact explainHandlerRun_dbCall b v t

/-- Key-projected existence check for a seed product row. -/
def hasProductKey (s : DbState) (p : String × Nat × Int) : Bool :=
  hasProduct s p.1

/-- Key-projected existence check for a seed sale row. -/
def hasSaleKey (s : DbState) (p : Nat × Int × Nat × String) : Bool :=
  hasSale s p.1 p.2.2.2

theorem insertProductKey_has_self (s : DbState) (p : String × Nat × Int) :
    hasProductKey (insertProduct s p) p = true :=
  insertProduct_has_self s p

theorem insertProductKey_has_mono (s : DbState) (p p' : String × Nat × Int)
    (h : hasProductKey s p = true) :
    hasProductKey (insertProduct s p') p = true :=
  insertProduct_has_mono s p.1 p' h

theorem insertProductKey_id (s : DbState) (p : String × Nat × Int)
    (h : hasProductKey s p = true) : insertProduct s p = s :=
  insertProduct_id s p h

theorem insertSaleKey_has_self (s : DbState) (p : Nat × Int × Nat × String) :
    hasSaleKey (insertSale s p) p = true :=
  insertSale_has_self s p

theorem insertSaleKey_has_mono (s : DbState) (p p' : Nat × Int × Nat × String)
    (h : hasSaleKey s p = true) : hasSaleKey (insertSale s p') p = true :=
  insertSale_has_mono s p.1 p.2.2.2 p' h

theorem insertSaleKey_id (s : DbState) (p : Nat × Int × Nat × String)
    (h : hasSaleKey s p = true) : insertSale s p = s :=
  insertSale_id s p h

theorem hasCategory_congr {s s' : DbState} (h : s.categories = s'.categories)
    (n : String) : hasCategory s n = hasCategory s' n := by
  simp [hasCategory, h]

theorem hasProductKey_congr {s s' : DbState} (h : s.products = s'.products)
    (p : String × Nat × Int) : hasProductKey s p = hasProductKey s' p := by
  simp [hasProductKey, hasProduct, h]

/-- C1: whenever the translator was actually invoked and its reply's SQL
part contains, case-insensitively, one of the denylisted verb pairs
DROP TABLE, DELETE FROM, ALTER TABLE, UPDATE SET (with a non-empty
whitespace run between the words), the /query handler answers 400 with
"Potentially destructive queries are not allowed." and no statement is
ever given to the storage layer. -/
theorem claim1_destructive_sql_rejected
    (body : Option String) (vReply tReply : ChatReply)
    (dbAll : String → Except Unit (List Row)) (c : ChatChoice)
    (cs : List ChatChoice) (m : String)
    (hch : tReply.choices = some (c :: cs)) (hc : c.content = some m)
    (hm : m ≠ "") (hdes : ClaimDestructive (parseTranslation m).1)
    (hcalled : (queryHandlerRun body vReply tReply dbAll).2.translatorCalled
      = true) :
    (queryHandlerRun body vReply tReply dbAll).1
        = HandlerResponse.clientError 400
            "Potentially destructive queries are not allowed."
      ∧ (queryHandlerRun body vReply tReply dbAll).2.dbCall = none := by
  have heq := queryHandlerRun_translatorCalled hcalled
  rw [heq]
  unfold translatePhase
  simp only [hch, hc, if_neg hm, isDestructive_of_claim hdes]
  simp

/-- Witness for C1: a concrete run whose translation is
"DROP TABLE products; removes the table" is rejected with the
destructive-query message and reaches no storage call. -/
theorem claim1_destructive_sql_rejected_witness :
    (queryHandlerRun (some "show all products")
        (ChatReply.mk (some [ChatChoice.mk (some "yes yes fine")]))
        (ChatReply.mk (some [ChatChoice.mk
          (some "DROP TABLE products; removes the table")]))
        (fun _ => Except.ok [])).1
        = HandlerResponse.clientError 400
            "Potentially destructive queries are not allowed."
      ∧ (queryHandlerRun (some "show all products")
        (ChatReply.mk (some [ChatChoice.mk (some "yes yes fine")]))
        (ChatReply.mk (some [ChatChoice.mk
          (some "DROP TABLE products; removes the table")]))
        (fun _ => Except.ok [])).2.dbCall = none :=
  claim1_destructive_sql_rejected (some "show all products")
    (ChatReply.mk (some [ChatChoice.mk (some "yes yes fine")]))
    (ChatReply.mk (some [ChatChoice.mk
      (some "DROP TABLE products; removes the table")]))
    (fun _ => Except.ok [])
    (ChatChoice.mk (some "DROP TABLE products; removes the table")) []
    "DROP TABLE products; removes the table" rfl rfl (by decide)
    (Or.inl ⟨[], [' '], " products".data, by decide, by decide, by decide⟩)
    (by decide)

/-- C2: whenever the middleware accepted the body and the validation
verdict has isValid false or isAligned false, the /query handler answers
400 with "Invalid query: " followed by the verdict's justification, and
neither the translator nor the storage layer is invoked. -/
theorem claim2_invalid_verdict_rejected
    (body : Option String) (q : String) (vReply tReply : ChatReply)
    (dbAll : String → Except Unit (List Row)) (v : Verdict)
    (hq : queryValidation body = Except.ok q)
    (hv : parseValidation vReply = JsOutcome.ok v)
    (hbad : v.isValid = false ∨ v.isAligned = false) :
    queryHandlerRun body vReply tReply dbAll
      = (HandlerResponse.clientError 400 ("Invalid query: " ++ v.justification),
         Effects.mk true false none) := by
  have hrl := parseValidation_ok_isRateLimited hv
  unfold queryHandlerRun
  simp only [hq, hv, hrl]
  rcases hbad with h | h
  · simp [h]
  · by_cases hval : v.isValid = true
    · simp [hval, h]
    · simp only [Bool.not_eq_true] at hval
      simp [hval]

/-- Witness for C2: a concrete misjudged query gets the 400 with the
verdict's justification and performs no translation or storage call. -/
theorem claim2_invalid_verdict_rejected_witness :
    queryHandlerRun (some "list names")
        (ChatReply.mk (some [ChatChoice.mk (some "no yes irrelevant")]))
        (ChatReply.mk none) (fun _ => Except.ok [])
      = (HandlerResponse.clientError 400 ("Invalid query: " ++ "irrelevant"),
         Effects.mk true false none) :=
  claim2_invalid_verdict_rejected (some "list names") "list names"
    (ChatReply.mk (some [ChatChoice.mk (some "no yes irrelevant")]))
    (ChatReply.mk none) (fun _ => Except.ok [])
    (Verdict.mk false true "irrelevant" false) rfl (by decide) (Or.inl rfl)

/-- A 501-character query whose final character is a space: the
middleware trims it to 500 characters before measuring. -/
def longQ : String := String.mk (List.replicate 500 'a' ++ [' '])

/-- Counterexample to C3 as stated: `longQ` is 501 characters long, yet
the request is not answered with the 400 length message — the middleware
measures the TRIMMED query — and the model gateway IS called. -/
theorem claim3_counterexample :
    longQ.length = 501
      ∧ (queryHandlerRun (some longQ) (ChatReply.mk none) (ChatReply.mk none)
          (fun _ => Except.ok [])).1
        = HandlerResponse.clientError 400 "Invalid query: Failed to validate query."
      ∧ (queryHandlerRun (some longQ) (ChatReply.mk none) (ChatReply.mk none)
          (fun _ => Except.ok [])).2.validatorCalled = true := by
  refine ⟨by decide, ?_, ?_⟩ <;> decide

/-- C3 amended: for every request whose query string is, after trimming,
longer than 500 characters, the service responds 400 with
"Query can only be a maximum of 500 characters" and neither the model
gateway nor the storage layer is called. -/
theorem claim3_amended_length_check (q : String) (vReply tReply : ChatReply)
    (dbAll : String → Except Unit (List Row))
    (h : 500 < (jsTrim q).length) :
    queryHandlerRun (some q) vReply tReply dbAll
      = (HandlerResponse.clientError 400
           "Query can only be a maximum of 500 characters",
         Effects.mk false false none) := by
  have hne : jsTrim q ≠ "" := by
    intro hq
    rw [hq] at h
    exact absurd h (by decide)
  unfold queryHandlerRun queryValidation
  simp [if_neg hne, if_pos h]

/-- Witness for the amended C3 at a 501-character all-letter query. -/
theorem claim3_amended_length_check_witness :
    queryHandlerRun (some (String.mk (List.replicate 501 'a')))
        (ChatReply.mk none) (ChatReply.mk none) (fun _ => Except.ok [])
      = (HandlerResponse.clientError 400
           "Query can only be a maximum of 500 characters",
         Effects.mk false false none) :=
  claim3_amended_length_check (String.mk (List.replicate 501 'a'))
    (ChatReply.mk none) (ChatReply.mk none) (fun _ => Except.ok [])
    (by decide)

/-- C4: a gateway reply with no choices, or whose first choice has a
missing, empty or all-whitespace message content, makes validateQuery
return the fail-closed verdict normally instead of raising. -/
theorem claim4_fail_closed (reply : ChatReply)
    (h : reply.choices = none ∨ reply.choices = some [] ∨
      ∃ c cs, reply.choices = some (c :: cs) ∧
        (c.content = none ∨ ∃ s, c.content = some s ∧ jsTrim s = "")) :
    parseValidation reply = JsOutcome.ok failClosedVerdict := by
  rcases h with h | h | ⟨c, cs, hch, hc⟩
  · unfold parseValidation
    rw [h]
  · unfold parseValidation
    rw [h]
  · rcases hc with hc | ⟨s, hc, hs⟩
    · unfold parseValidation
      simp [hch, hc]
    · unfold parseValidation
      simp [hch, hc, hs]

/-- Witness for C4 at a reply with an empty choices array. -/
theorem claim4_fail_closed_witness :
    parseValidation (ChatReply.mk (some [])) = JsOutcome.ok failClosedVerdict :=
  claim4_fail_closed (ChatReply.mk (some [])) (Or.inr (Or.inl rfl))

/-- Counterexample to C5 as stated: in the reply "yes\tyes ok" the first
WHITESPACE-delimited token is "yes", yet validateQuery computes
isValid = false, because the code splits on the space character only and
compares the whole field "yes\tyes" against "yes". -/
theorem claim5_counterexample :
    (wsTokens "yes\tyes ok").head? = some "yes"
      ∧ parseValidation (ChatReply.mk (some [ChatChoice.mk (some "yes\tyes ok")]))
        = JsOutcome.ok (Verdict.mk false false "" false) := by
  constructor <;> decide

/-- C5 amended: validateQuery tokenizes on the single space character
(not general whitespace): writing the trimmed reply as `a ++ " " ++ b ++
" " ++ t` with `a`, `b` space-free, isValid is `a` lowercased equal
"yes", isAligned likewise for `b`, and the justification is exactly `t`;
with only two space-separated fields the justification is empty. -/
theorem claim5_amended_space_split :
    (∀ (reply : ChatReply) (c : ChatChoice) (cs : List ChatChoice) (m : String)
        (a b t : List Char), reply.choices = some (c :: cs) →
        c.content = some m → jsTrim m = m →
        m.data = a ++ ' ' :: (b ++ ' ' :: t) → ' ' ∉ a → ' ' ∉ b →
        parseValidation reply
          = JsOutcome.ok (Verdict.mk (jsLower a == "yes".data)
              (jsLower b == "yes".data) (String.mk t) false))
    ∧ (∀ (reply : ChatReply) (c : ChatChoice) (cs : List ChatChoice) (m : String)
        (a b : List Char), reply.choices = some (c :: cs) →
        c.content = some m → jsTrim m = m → m.data = a ++ ' ' :: b →
        ' ' ∉ a → ' ' ∉ b →
        parseValidation reply
          = JsOutcome.ok (Verdict.mk (jsLower a == "yes".data)
              (jsLower b == "yes".data) "" false)) := by
  constructor
  · intro reply c cs m a b t hch hc htrim hdata hna hnb
    have hne : m ≠ "" := by
      intro hm
      subst hm
      simp at hdata
    unfold parseValidation
    simp only [hch, hc, htrim, if_neg hne]
    rw [hdata, jsSplit_cons_of_sep (b ++ ' ' :: t) hna,
      jsSplit_cons_of_sep t hnb]
    simp [show joinSep [' '] (jsSplit [' '] t) = t from
      @joinSep_jsSplit [' '] (by simp) t]
  · intro reply c cs m a b hch hc htrim hdata hna hnb
    have hne : m ≠ "" := by
      intro hm
      subst hm
      simp at hdata
    unfold parseValidation
    simp only [hch, hc, htrim, if_neg hne]
    rw [hdata, jsSplit_cons_of_sep b hna, jsSplit_single_of_not_mem hnb]
    simp [joinSep]

/-- Witness for the amended C5 on "no yes too vague" (three-plus fields)
and "yes no" (exactly two fields). -/
theorem claim5_amended_space_split_witness :
    parseValidation (ChatReply.mk (some [ChatChoice.mk (some "no yes too vague")]))
        = JsOutcome.ok (Verdict.mk false true "too vague" false)
      ∧ parseValidation (ChatReply.mk (some [ChatChoice.mk (some "yes no")]))
        = JsOutcome.ok (Verdict.mk true false "" false) :=
  ⟨(claim5_amended_space_split.1
      (ChatReply.mk (some [ChatChoice.mk (some "no yes too vague")]))
      (ChatChoice.mk (some "no yes too vague")) [] "no yes too vague"
      "no".data "yes".data "too vague".data rfl rfl (by decide) (by decide)
      (by decide) (by decide)).trans (by decide),
   (claim5_amended_space_split.2
      (ChatReply.mk (some [ChatChoice.mk (some "yes no")]))
      (ChatChoice.mk (some "yes no")) [] "yes no"
      "yes".data "no".data rfl rfl (by decide) (by decide)
      (by decide) (by decide)).trans (by decide)⟩

/-- Counterexample to C6 as stated: the reply
"SELECT 1; part one; part two" splits into THREE parts; the translator
keeps the first two and drops the rest, so the concatenation
sqlStatement ++ "; " ++ explanation does not reconstruct the reply. -/
theorem claim6_counterexample :
    parseTranslation "SELECT 1; part one; part two"
        = ("SELECT 1", some "part one")
      ∧ "SELECT 1" ++ "; " ++ "part one" ≠ "SELECT 1; part one; part two" := by
  constructor <;> decide

/-- C6 amended: the translator destructures the first two parts of the
"; "-split of the reply; when the split has exactly two parts (the
delimiter occurs exactly once) they reconstruct the reply; and an empty
reply makes /query answer a 500 server error
"Failed to generate SQL query" without reaching the storage layer. -/
theorem claim6_amended_translation_split :
    (∀ (m : String) (s e : List Char),
        jsSplit [';', ' '] m.data = [s, e] →
        parseTranslation m = (String.mk s, some (String.mk e))
          ∧ String.mk (s ++ [';', ' '] ++ e) = m)
    ∧ (∀ (body : Option String) (q : String) (vReply tReply : ChatReply)
        (dbAll : String → Except Unit (List Row)) (v : Verdict)
        (c : ChatChoice) (cs : List ChatChoice),
        queryValidation body = Except.ok q →
        parseValidation vReply = JsOutcome.ok v → v.isValid = true →
        v.isAligned = true → tReply.choices = some (c :: cs) →
        c.content = some "" →
        queryHandlerRun body vReply tReply dbAll
          = (HandlerResponse.serverError 500 "Failed to generate SQL query",
             Effects.mk true true none)) := by
  constructor
  · intro m s e h
    constructor
    · unfold parseTranslation
      rw [h]
    · have hj := @joinSep_jsSplit [';', ' '] (by simp) m.data
      rw [h] at hj
      simp only [joinSep] at hj
      rw [hj]
  · intro body q vReply tReply dbAll v c cs hq hv hval hal hch hc
    rw [queryHandlerRun_of_valid tReply dbAll hq hv hval hal]
    unfold translatePhase
    simp [hch, hc]

/-- Witness for the amended C6: a single-delimiter reply splits and
reconstructs, and an empty translation reply yields the 500. -/
theorem claim6_amended_translation_split_witness :
    parseTranslation "SELECT 2; count rows" = ("SELECT 2", some "count rows")
      ∧ String.mk ("SELECT 2".data ++ [';', ' '] ++ "count rows".data)
          = "SELECT 2; count rows"
      ∧ queryHandlerRun (some "count rows")
          (ChatReply.mk (some [ChatChoice.mk (some "yes yes ok")]))
          (ChatReply.mk (some [ChatChoice.mk (some "")]))
          (fun _ => Except.ok [])
        = (HandlerResponse.serverError 500 "Failed to generate SQL query",
           Effects.mk true true none) :=
  ⟨(claim6_amended_translation_split.1 "SELECT 2; count rows"
      "SELECT 2".data "count rows".data (by decide)).1.trans (by decide),
   (claim6_amended_translation_split.1 "SELECT 2; count rows"
      "SELECT 2".data "count rows".data (by decide)).2,
   claim6_amended_translation_split.2 (some "count rows") "count rows"
     (ChatReply.mk (some [ChatChoice.mk (some "yes yes ok")]))
     (ChatReply.mk (some [ChatChoice.mk (some "")]))
     (fun _ => Except.ok []) (Verdict.mk true true "ok" false)
     (ChatChoice.mk (some "")) []
     rfl (by decide) rfl rfl rfl rfl⟩

/-- Counterexample to C7 as stated: with no PORT configured but a token
present, startup succeeds (listening on the hardcoded port 4000), so the
absence of the port number is NOT a fatal startup error. -/
theorem claim7_counterexample :
    startup (ProcessEnv.mk none (some "token")) = Except.ok 4000 := rfl

/-- C7 amended: the absence of the external-model access token is a
fatal startup error, while the port is hardcoded to 4000 in main.ts and
is not read from the environment at all: startup succeeds with port 4000
whenever the token is present, whatever PORT is. -/
theorem claim7_amended_startup (env : ProcessEnv) :
    (env.GITHUB_PAT = none →
      startup env = Except.error "Github Personal Access Token isn't defined")
    ∧ (∀ p, env.GITHUB_PAT = some p → startup env = Except.ok 4000) := by
  constructor
  · intro h
    unfold startup clientInit
    rw [h]
  · intro p h
    unfold startup clientInit
    rw [h]
    rfl

/-- Witness for the amended C7 at two concrete environments. -/
theorem claim7_amended_startup_witness :
    startup (ProcessEnv.mk (some "4000") none)
        = Except.error "Github Personal Access Token isn't defined"
      ∧ startup (ProcessEnv.mk none (some "tok")) = Except.ok 4000 :=
  ⟨(claim7_amended_startup (ProcessEnv.mk (some "4000") none)).1 rfl,
   (claim7_amended_startup (ProcessEnv.mk none (some "tok"))).2 "tok" rfl⟩

/-- C8: any sequence of /validate and /explain calls issues no statement
to the storage layer, so the store — and in particular the row counts of
categories, products and sales — is identical before and after. -/
theorem claim8_read_endpoints_no_mutation
    (exec : DbState → String → DbState) (s : DbState)
    (calls : List ApiReadCall) :
    calls.foldl (runReadCall exec) s = s
      ∧ (calls.foldl (runReadCall exec) s).categories.length
          = s.categories.length
      ∧ (calls.foldl (runReadCall exec) s).products.length
          = s.products.length
      ∧ (calls.foldl (runReadCall exec) s).sales.length = s.sales.length := by
  have hrun : ∀ (t : DbState) (c : ApiReadCall), runReadCall exec t c = t := by
    intro t c
    unfold runReadCall
    rw [readCallEffects_dbCall]
  have hfold : ∀ (l : List ApiReadCall) (t : DbState),
      l.foldl (runReadCall exec) t = t := by
    intro l
    induction l with
    | nil => intro t; rfl
    | cons x xs ih =>
      intro t
      simp only [List.foldl_cons, hrun]
      exact ih t
  refine ⟨hfold calls s, ?_, ?_, ?_⟩ <;> rw [hfold calls s]

/-- C9: a gateway validation reply whose trimmed content is a single
token (no space character) makes validateQuery throw instead of
returning a fail-closed verdict, and the /query request ends as an
uncaught error, a 500 through the global error handler. -/
theorem claim9_single_token_throws
    (body : Option String) (q : String) (vReply tReply : ChatReply)
    (dbAll : String → Except Unit (List Row)) (c : ChatChoice)
    (cs : List ChatChoice) (m : String)
    (hq : queryValidation body = Except.ok q)
    (hch : vReply.choices = some (c :: cs)) (hc : c.content = some m)
    (hne : jsTrim m ≠ "") (hns : ' ' ∉ (jsTrim m).data) :
    parseValidation vReply = JsOutcome.thrown
      ∧ queryHandlerRun body vReply tReply dbAll
        = (HandlerResponse.nextErr, Effects.mk true false none)
      ∧ responseStatus HandlerResponse.nextErr = 500 := by
  have hthrown := parseValidation_thrown_of_single hch hc hne hns
  refine ⟨hthrown, ?_, rfl⟩
  unfold queryHandlerRun
  simp [hq, hthrown]

/-- Witness for C9 at the single-token reply "yes". -/
theorem claim9_single_token_throws_witness :
    parseValidation (ChatReply.mk (some [ChatChoice.mk (some "yes")]))
        = JsOutcome.thrown
      ∧ queryHandlerRun (some "show sales")
          (ChatReply.mk (some [ChatChoice.mk (some "yes")]))
          (ChatReply.mk none) (fun _ => Except.ok [])
        = (HandlerResponse.nextErr, Effects.mk true false none)
      ∧ responseStatus HandlerResponse.nextErr = 500 :=
  claim9_single_token_throws (some "show sales") "show sales"
    (ChatReply.mk (some [ChatChoice.mk (some "yes")])) (ChatReply.mk none)
    (fun _ => Except.ok []) (ChatChoice.mk (some "yes")) [] "yes"
    rfl rfl rfl (by decide) (by decide)

/-- C10: database seeding is idempotent — every insert of
insertInitialData is guarded by a WHERE NOT EXISTS check on the row's
natural key, so running it again on an already-seeded store inserts
nothing and leaves all three tables unchanged. -/
theorem claim10_seeding_idempotent (s : DbState) :
    insertInitialData (insertInitialData s) = insertInitialData s := by
  have hcat1 := @foldl_mem_has DbState String insertCategory hasCategory
    insertCategory_has_self insertCategory_has_mono seedCategories s
  have hprod1 := @foldl_mem_has DbState (String × Nat × Int) insertProduct
    hasProductKey insertProductKey_has_self insertProductKey_has_mono
    seedProducts (seedCategories.foldl insertCategory s)
  have hsale1 := @foldl_mem_has DbState (Nat × Int × Nat × String) insertSale
    hasSaleKey insertSaleKey_has_self insertSaleKey_has_mono seedSales
    (seedProducts.foldl insertProduct (seedCategories.foldl insertCategory s))
  have hc3 : ∀ n ∈ seedCategories,
      hasCategory (insertInitialData s) n = true := by
    intro n hn
    have hEq : (insertInitialData s).categories
        = (seedCategories.foldl insertCategory s).categories := by
      unfold insertInitialData
      rw [foldl_insertSale_categories, foldl_insertProduct_categories]
    rw [hasCategory_congr hEq n]
    exact hcat1 n hn
  have hp3 : ∀ p ∈ seedProducts,
      hasProductKey (insertInitialData s) p = true := by
    intro p hp
    have hEq : (insertInitialData s).products
        = (seedProducts.foldl insertProduct
            (seedCategories.foldl insertCategory s)).products := by
      unfold insertInitialData
      rw [foldl_insertSale_products]
    rw [hasProductKey_congr hEq p]
    exact hprod1 p hp
  have hs3 : ∀ p ∈ seedSales, hasSaleKey (insertInitialData s) p = true := by
    intro p hp
    exact hsale1 p hp
  have h1 : seedCategories.foldl insertCategory (insertInitialData s)
      = insertInitialData s :=
    @foldl_id_of_has DbState String insertCategory hasCategory
      insertCategory_id seedCategories (insertInitialData s) hc3
  have h2 : seedProducts.foldl insertProduct (insertInitialData s)
      = insertInitialData s :=
    @foldl_id_of_has DbState (String × Nat × Int) insertProduct hasProductKey
      insertProductKey_id seedProducts (insertInitialData s) hp3
  have h3 : seedSales.foldl insertSale (insertInitialData s)
      = insertInitialData s :=
    @foldl_id_of_has DbState (Nat × Int × Nat × String) insertSale hasSaleKey
      insertSaleKey_id seedSales (insertInitialData s) hs3
  calc insertInitialData (insertInitialData s)
      = seedSales.foldl insertSale (seedProducts.foldl insertProduct
          (seedCategories.foldl insertCategory (insertInitialData s))) := rfl
    _ = insertInitialData s := by rw [h1, h2, h3]
